import Mathlib

/-!
Verification of the Form-filling assistant backend.

Shallow embedding of the Python sources:
  * `src/backend/extractor.py`        (`SmartPDFExtractor`)
  * `src/backend/form_filler.py`      (async `GoogleFormFiller`)
  * `src/backend/form_filler_sync.py` (sync `GoogleFormFiller`)

Strings are modelled as `List Char`; Python string methods (`lower`,
`strip`, `split`, `in`, `replace`) are re-implemented below with their
ASCII semantics, and the six `re` patterns used by the extractor are
implemented as specialized matchers with Python's leftmost-first,
greedy-with-backtracking semantics.
-/

set_option maxRecDepth 4000

/-! ## Python string primitives, on `List Char` -/

/-- ASCII letter, `[A-Za-z]`. -/
def isAsciiAlpha (c : Char) : Bool :=
  ('A' ≤ c && c ≤ 'Z') || ('a' ≤ c && c ≤ 'z')

/-- ASCII digit, `[0-9]`. -/
def isDig (c : Char) : Bool := '0' ≤ c && c ≤ '9'

/-- Python `\s` / `str.strip` whitespace (ASCII part). -/
def isPySpace (c : Char) : Bool :=
  c = ' ' || c = '\t' || c = '\n' || c = '\r' || c = '\x0b' || c = '\x0c'

/-- Regex word character `\w`, used for `\b` boundaries. -/
def isWordC (c : Char) : Bool := isAsciiAlpha c || isDig c || c = '_'

/-- Python `str.lower` on one ASCII character. -/
def pyLowerChar (c : Char) : Char :=
  if 'A' ≤ c && c ≤ 'Z' then Char.ofNat (c.toNat + 32) else c

/-- Python `str.lower`. -/
def pyLowerL (s : List Char) : List Char := s.map pyLowerChar

/-- Python `str.isupper` on one character (ASCII). -/
def isUpperA (c : Char) : Bool := 'A' ≤ c && c ≤ 'Z'

/-- Python `str.strip()` (both ends). -/
def pyStripL (s : List Char) : List Char :=
  let t := s.dropWhile isPySpace
  (t.reverse.dropWhile isPySpace).reverse

/-- Prefix test `isPrefixL p s`: does `s` start with `p`? -/
def isPrefixL : List Char → List Char → Bool
  | [], _ => true
  | _ :: _, [] => false
  | a :: p, b :: s => a == b && isPrefixL p s

/-- Python `needle in hay` (substring containment). -/
def isSubL (needle : List Char) : List Char → Bool
  | [] => isPrefixL needle []
  | c :: rest => isPrefixL needle (c :: rest) || isSubL needle rest

/-- Python `str.split('\n')`. -/
def splitOnNl : List Char → List (List Char)
  | [] => [[]]
  | c :: rest =>
    if c = '\n' then [] :: splitOnNl rest
    else
      match splitOnNl rest with
      | l :: ls => (c :: l) :: ls
      | [] => [[c]]

/-- Worker for `pySplitWs`: `acc` is the current word, reversed. -/
def wordsAux : List Char → List Char → List (List Char)
  | [], acc => if acc.isEmpty then [] else [acc.reverse]
  | c :: rest, acc =>
    if isPySpace c then
      if acc.isEmpty then wordsAux rest [] else acc.reverse :: wordsAux rest []
    else wordsAux rest (c :: acc)

/-- Python `str.split()` (split on whitespace runs, dropping empties). -/
def pySplitWs (cs : List Char) : List (List Char) := wordsAux cs []

/-- Python `sep.join(parts)`. -/
def joinWith (sep : List Char) : List (List Char) → List Char
  | [] => []
  | [x] => x
  | x :: xs => x ++ sep ++ joinWith sep xs

/-- First-key lookup in an association list (a Python `dict` access). -/
def lookupL (data : List (List Char × List Char)) (k : List Char) : Option (List Char) :=
  match data with
  | [] => none
  | (k', v) :: rest => if k = k' then some v else lookupL rest k

/-! ## Regex matchers (`extractor.py` lines 100-107)

Each matcher takes the character just before the current position
(`prev`, for `\b`) and the rest of the text, and returns the number of
characters the pattern consumes there, following Python's greedy
backtracking priority. `scanFrom` then gives `re.findall(...)[0]`:
the match at the leftmost position where one exists. -/

/-- Wordness of an optional character (`none` = string edge, non-word). -/
def wordO : Option Char → Bool
  | none => false
  | some c => isWordC c

/-- Boundary `\b` between a previous character and the head of the rest. -/
def bAt (prev : Option Char) (cs : List Char) : Bool :=
  wordO prev != wordO cs.head?

/-- Email local-part class `[A-Za-z0-9._%+-]`. -/
def isLcls (c : Char) : Bool :=
  isAsciiAlpha c || isDig c || c = '.' || c = '_' || c = '%' || c = '+' || c = '-'

/-- Email domain class `[A-Za-z0-9.-]`. -/
def isMcls (c : Char) : Bool := isAsciiAlpha c || isDig c || c = '.' || c = '-'

/-- Email TLD class `[A-Z|a-z]` (the `|` is a literal member of the class). -/
def isTcls (c : Char) : Bool := isAsciiAlpha c || c = '|'

/-- Longest run `t ≤ g` with `t ≥ 2` of TLD characters followed by a `\b`
(the trailing `T{2,}\b` with backtracking, longest first). -/
def bestT (cs : List Char) : Nat → Option Nat
  | 0 => none
  | t + 1 =>
    if t + 1 ≥ 2 && (wordO ((cs.drop t).head?) != wordO ((cs.drop (t + 1)).head?)) then
      some (t + 1)
    else bestT cs t

/-- Matcher for `\.[A-Z|a-z]{2,}\b` at the current position. -/
def matchDotT : List Char → Option Nat
  | '.' :: rest =>
    match bestT rest ((rest.takeWhile isTcls).length) with
    | some n => some (n + 1)
    | none => none
  | _ => none

/-- Matcher for `[A-Za-z0-9.-]* \. [A-Z|a-z]{2,}\b` with a greedy star: prefer
consuming another domain character; on failure try the literal dot here. -/
def matchMStar : List Char → Option Nat
  | [] => none
  | c :: rest =>
    if isMcls c then
      match matchMStar rest with
      | some n => some (n + 1)
      | none => matchDotT (c :: rest)
    else matchDotT (c :: rest)

/-- Matcher for the `email` pattern
`\b[A-Za-z0-9._%+-]+@[A-Za-z0-9.-]+\.[A-Z|a-z]{2,}\b`. -/
def matchEmail (prev : Option Char) (cs : List Char) : Option Nat :=
  if bAt prev cs then
    let n := (cs.takeWhile isLcls).length
    if n = 0 then none
    else
      match cs.drop n with
      | '@' :: rest =>
        match rest with
        | [] => none
        | d :: rest' =>
          if isMcls d then
            match matchMStar rest' with
            | some m => some (n + 1 + 1 + m)
            | none => none
          else none
      | _ => none
  else none

/-- Matcher for `[6-9]\d{9}` then a trailing `\b`; returns 10 on success. -/
def phoneCore (cs : List Char) : Option Nat :=
  match cs with
  | c :: rest =>
    if '6' ≤ c && c ≤ '9' then
      let ds := rest.take 9
      if ds.length = 9 && ds.all isDig && !(wordO (rest.drop 9).head?) then some 10
      else none
    else none
  | [] => none

/-- Matcher for the `phone` pattern `\b(?:\+91[\s-]?)?[6-9]\d{9}\b`, optional group
tried greedily (with separator, without separator, without group). -/
def matchPhone (prev : Option Char) (cs : List Char) : Option Nat :=
  if bAt prev cs then
    match cs with
    | '+' :: '9' :: '1' :: s :: rest =>
      if isPySpace s || s = '-' then
        match phoneCore rest with
        | some n => some (n + 4)
        | none =>
          match phoneCore (s :: rest) with
          | some n => some (n + 3)
          | none => phoneCore cs
      else
        match phoneCore (s :: rest) with
        | some n => some (n + 3)
        | none => phoneCore cs
    | _ => phoneCore cs
  else none

/-- Consume exactly `n` digits, returning the rest. -/
def digitsN : Nat → List Char → Option (List Char)
  | 0, cs => some cs
  | n + 1, c :: rest => if isDig c then digitsN n rest else none
  | _ + 1, [] => none

/-- Matcher for `[\s-]?` (greedy, but backtracking can never help here because the
following atom is a digit and the separator is not): consume a separator
if present. -/
def optSep (cs : List Char) : Nat × List Char :=
  match cs with
  | c :: rest => if isPySpace c || c = '-' then (1, rest) else (0, cs)
  | [] => (0, [])

/-- Matcher for the `aadhaar` pattern `\b\d{4}[\s-]?\d{4}[\s-]?\d{4}\b`. -/
def matchAadhaar (prev : Option Char) (cs : List Char) : Option Nat :=
  if bAt prev cs then
    match digitsN 4 cs with
    | none => none
    | some r1 =>
      let (s1, r2) := optSep r1
      match digitsN 4 r2 with
      | none => none
      | some r3 =>
        let (s2, r4) := optSep r3
        match digitsN 4 r4 with
        | none => none
        | some r5 => if wordO r5.head? then none else some (12 + s1 + s2)
  else none

/-- Matcher for the `pan` pattern `\b[A-Z]{5}\d{4}[A-Z]\b` with `re.IGNORECASE`:
letters match either case. -/
def matchPan (prev : Option Char) (cs : List Char) : Option Nat :=
  if bAt prev cs then
    let ls := cs.take 5
    if ls.length = 5 && ls.all isAsciiAlpha then
      match digitsN 4 (cs.drop 5) with
      | none => none
      | some r =>
        match r with
        | c :: rest => if isAsciiAlpha c && !(wordO rest.head?) then some 10 else none
        | [] => none
    else none
  else none

/-- Matcher for the `pincode` pattern `\b\d{6}\b`. -/
def matchPincode (prev : Option Char) (cs : List Char) : Option Nat :=
  if bAt prev cs then
    let ds := cs.take 6
    if ds.length = 6 && ds.all isDig && !(wordO (cs.drop 6).head?) then some 6
    else none
  else none

/-- Matcher for `\d{2,4}\b` with greedy backtracking: longest `t ∈ [2,4]` of digits
followed by a boundary. -/
def dateTail24 (cs : List Char) : Nat → Option Nat
  | 0 => none
  | 1 => none
  | t + 2 =>
    let ds := cs.take (t + 2)
    if ds.length = t + 2 && ds.all isDig && !(wordO (cs.drop (t + 2)).head?) then
      some (t + 2)
    else dateTail24 cs (t + 1)

/-- The slash-dash class (a slash or a dash). -/
def isSlashDash (c : Char) : Bool := c = '/' || c = '-'

/-- Matcher for `\d{1,2}` with greedy priority feeding a continuation. -/
def dateD12 (cs : List Char) (k : List Char → Option Nat) : Option Nat :=
  match cs with
  | a :: b :: rest =>
    if isDig a && isDig b then
      match k rest with
      | some n => some (n + 2)
      | none => (k (b :: rest)).map (· + 1)
    else if isDig a then (k (b :: rest)).map (· + 1)
    else none
  | [a] => if isDig a then (k []).map (· + 1) else none
  | [] => none

/-- A slash-dash separator feeding a continuation. -/
def dateSlash (cs : List Char) (k : List Char → Option Nat) : Option Nat :=
  match cs with
  | c :: rest => if isSlashDash c then (k rest).map (· + 1) else none
  | [] => none

/-- The `date` pattern: one or two digits, slash-dash, one or two digits,
slash-dash, two to four digits, between word boundaries. -/
def matchDate (prev : Option Char) (cs : List Char) : Option Nat :=
  if bAt prev cs then
    dateD12 cs (fun r1 =>
      dateSlash r1 (fun r2 =>
        dateD12 r2 (fun r3 =>
          dateSlash r3 (fun r4 => dateTail24 r4 4))))
  else none

/-- Leftmost match: scan positions left to right; at the first position
where the matcher succeeds, return the consumed characters
(`re.findall(...)[0]`). -/
def scanFrom (m : Option Char → List Char → Option Nat) :
    Option Char → List Char → Option (List Char)
  | prev, cs =>
    match m prev cs with
    | some n => some (cs.take n)
    | none =>
      match cs with
      | [] => none
      | c :: rest => scanFrom m (some c) rest

/-- The regex-extracted fields of `extract_structured_data`. -/
inductive RField where
  | email | phone | aadhaar | pan | pincode | date
deriving DecidableEq

/-- The matcher the extractor uses for each regex field. -/
def matcherOf : RField → Option Char → List Char → Option Nat
  | .email => matchEmail
  | .phone => matchPhone
  | .aadhaar => matchAadhaar
  | .pan => matchPan
  | .pincode => matchPincode
  | .date => matchDate

/-- First match `re.findall(pattern, text, re.IGNORECASE)[0]` for one field. -/
def firstMatch (f : RField) (text : List Char) : Option (List Char) :=
  scanFrom (matcherOf f) none text

/-- Regex part of `extract_structured_data`: `matches[0].strip()` when a match exists
(at most one value per field, by type). -/
def regexField (f : RField) (text : List Char) : Option (List Char) :=
  (firstMatch f text).map pyStripL

/-! ## Name extraction (`extractor.py` lines 131-204, Strategy 1)

`extract_name_improved` splits the text into lines and keeps a line as a
potential name when a conjunction of guards holds (the sequential
`continue` guards of the Python loop are a pure conjunction). The
question-answering fallback (Strategy 2) is an optional external
collaborator; it is modelled as unavailable, so the function returns
`none` when Strategy 1 finds nothing. -/

/-- The fixed denylist of document-boilerplate words (`skip_words`). -/
def skip_words : List (List Char) :=
  ["government", "india", "aadhaar", "unique", "authority",
   "male", "female", "dob", "birth", "year", "card", "number",
   "address", "pin", "code", "state", "district", "post",
   "income", "tax", "department", "permanent", "account",
   "republic", "signature", "photo", "date", "issue", "issued",
   "enrollment", "help", "resident", "identity", "www", "uidai"].map String.data

/-- A run of two or more consecutive digits (`re.search(r'\d{2,}', line)`). -/
def hasDigitRun2 : List Char → Bool
  | a :: b :: rest => (isDig a && isDig b) || hasDigitRun2 (b :: rest)
  | _ => false

/-- Python `line.replace(' ', '')`: remove space characters (only `' '`). -/
def noSpaces (l : List Char) : List Char := l.filter (fun c => c ≠ ' ')

/-- Python `w.replace('.', '').isalpha()` (Python `isalpha` is false on empty). -/
def wordAlphaNoDots (w : List Char) : Bool :=
  let w' := w.filter (fun c => c ≠ '.')
  !w'.isEmpty && w'.all isAsciiAlpha

/-- First character of the first word is uppercase (`words[0][0].isupper()`). -/
def firstWordCapital (ws : List (List Char)) : Bool :=
  match ws with
  | (c :: _) :: _ => isUpperA c
  | _ => false

/-- All guards of the potential-name loop, on an already-stripped line. -/
def lineQualifies (line : List Char) : Bool :=
  (3 ≤ line.length && line.length ≤ 100) &&
  !(skip_words.any (fun w => isSubL w (pyLowerL line))) &&
  !hasDigitRun2 line &&
  !(line.any (fun c => !(isAsciiAlpha c || isPySpace c || c = '.'))) &&
  (let ws := pySplitWs line
   (2 ≤ ws.length && ws.length ≤ 4) &&
   ws.all wordAlphaNoDots &&
   firstWordCapital ws) &&
  (noSpaces line).length ≥ 4

/-- Python `max(l, key=f)`: the first element attaining the maximum. -/
def maxByFirst (f : α → Nat) : List α → Option α
  | [] => none
  | x :: xs => some (xs.foldl (fun b y => if f y > f b then y else b) x)

/-- The qualifying lines of a text, in order (`potential_names`). -/
def potentialNames (text : List Char) : List (List Char) :=
  ((splitOnNl text).map pyStripL).filter lineQualifies

/-- Name extraction `extract_name_improved`, Strategy 1 plus the (unavailable) fallback. -/
def extract_name_improved (text : List Char) : Option (List Char) :=
  match maxByFirst (fun x => (noSpaces x).length) (potentialNames text) with
  | none => none
  | some best =>
    if (noSpaces best).length < 6 then
      match maxByFirst (fun x => (noSpaces x).length)
          ((potentialNames text).filter (fun n => (noSpaces n).length ≥ 6)) with
      | some better => some better
      | none => some best
    else some best

/-! ## Address extraction (`extractor.py` lines 206-243, line scan only;
the question-answering fallback is again modelled as unavailable). -/

/-- Address indicator substrings. -/
def addrIndicators : List (List Char) :=
  ["s/o", "c/o", "d/o", "w/o", "street", "road", "village"].map String.data

/-- The next up-to-3 stripped lines that are longer than 3 characters. -/
def addrNext (ls : List (List Char)) : List (List Char) :=
  ((ls.take 3).map pyStripL).filter (fun l => l.length > 3)

/-- Address extraction `extract_address`, the indicator-line scan. -/
def extract_address : List (List Char) → Option (List Char)
  | [] => none
  | l :: rest =>
    let line := pyStripL l
    if addrIndicators.any (fun w => isSubL w (pyLowerL line)) then
      let joined := joinWith [' '] (line :: addrNext rest)
      if joined.length > 20 then some (joined.take 200)
      else extract_address rest
    else extract_address rest

/-- The `FieldMap` produced by `extract_structured_data` (each key holds at
most one value, by type; a key is absent when extraction found nothing). -/
structure FieldMapRec where
  email : Option (List Char)
  phone : Option (List Char)
  aadhaar : Option (List Char)
  pan : Option (List Char)
  pincode : Option (List Char)
  date : Option (List Char)
  name : Option (List Char)
  address : Option (List Char)
deriving DecidableEq

/-- Full `extract_structured_data`: regex fields, then name, then address. -/
def extract_structured_data (text : List Char) : FieldMapRec :=
  { email := regexField .email text
    phone := regexField .phone text
    aadhaar := regexField .aadhaar text
    pan := regexField .pan text
    pincode := regexField .pincode text
    date := regexField .date text
    name := extract_name_improved text
    address := extract_address (splitOnNl text) }

/-! ## Field Matcher (`get_value_for_field`)

Two implementations exist:
  * `form_filler.py` lines 208-253 (async): an `if/elif` chain where each
    category returns `data.get(key, '')` — the first keyword-matching
    category always decides the result;
  * `form_filler_sync.py` lines 363-409 (sync): separate `if` statements,
    each `if any(kw in field): if key in data: return data[key]` — a
    keyword-matching category whose key is absent from the data dict does
    not return, and control falls through to the next category.

Data dicts are modelled as association lists with first-key lookup. -/

/-- Dict keys of the field map. -/
def nameK : List Char := "name".data
def emailK : List Char := "email".data
def phoneK : List Char := "phone".data
def aadhaarK : List Char := "aadhaar".data
def panK : List Char := "pan".data
def addressK : List Char := "address".data
def pincodeK : List Char := "pincode".data
def dateK : List Char := "date".data

/-- Keyword sets of the async matcher (`form_filler.py`), in source order. -/
def asyncCats : List (List (List Char) × List Char) :=
  [((["name", "naam", "full name", "your name", "applicant name"].map String.data), nameK),
   ((["email", "e-mail", "mail", "electronic"].map String.data), emailK),
   ((["phone", "mobile", "contact", "telephone", "cell"].map String.data), phoneK),
   ((["aadhaar", "aadhar", "uid", "unique id"].map String.data), aadhaarK),
   ((["pan", "permanent account"].map String.data), panK),
   ((["address", "location", "residence", "residential"].map String.data), addressK),
   ((["pin", "postal", "zip", "pincode"].map String.data), pincodeK),
   ((["dob", "birth", "date of birth"].map String.data), dateK)]

/-- Keyword sets of the sync matcher (`form_filler_sync.py`), in source
order (the two capitalized Aadhaar keywords are kept verbatim; they can
never hit a lowercased label). -/
def syncCats : List (List (List Char) × List Char) :=
  [((["name", "naam", "full name", "your name", "applicant"].map String.data), nameK),
   ((["email", "e-mail", "mail", "electronic"].map String.data), emailK),
   ((["phone", "mobile", "contact", "telephone", "cell"].map String.data), phoneK),
   ((["aadhaar", "aadhar", "uid", "unique", "adhaar", "Aadhar number", "Aadhar"].map String.data), aadhaarK),
   ((["pan", "permanent account"].map String.data), panK),
   ((["address", "location", "residence", "street"].map String.data), addressK),
   ((["pin", "postal", "zip", "pincode"].map String.data), pincodeK),
   ((["dob", "birth", "date"].map String.data), dateK)]

/-- Python `any(k in field for k in kws)`. -/
def kwHit (field : List Char) (kws : List (List Char)) : Bool :=
  kws.any (fun k => isSubL k field)

/-- Matcher `get_value_for_field` of `form_filler.py` (async): `if/elif` chain,
each branch returning `data.get(key, '')`. -/
def get_value_for_field (fieldName : List Char)
    (data : List (List Char × List Char)) : List Char :=
  let field := pyLowerL fieldName
  if kwHit field (["name", "naam", "full name", "your name", "applicant name"].map String.data) then
    (lookupL data nameK).getD []
  else if kwHit field (["email", "e-mail", "mail", "electronic"].map String.data) then
    (lookupL data emailK).getD []
  else if kwHit field (["phone", "mobile", "contact", "telephone", "cell"].map String.data) then
    (lookupL data phoneK).getD []
  else if kwHit field (["aadhaar", "aadhar", "uid", "unique id"].map String.data) then
    (lookupL data aadhaarK).getD []
  else if kwHit field (["pan", "permanent account"].map String.data) then
    (lookupL data panK).getD []
  else if kwHit field (["address", "location", "residence", "residential"].map String.data) then
    (lookupL data addressK).getD []
  else if kwHit field (["pin", "postal", "zip", "pincode"].map String.data) then
    (lookupL data pincodeK).getD []
  else if kwHit field (["dob", "birth", "date of birth"].map String.data) then
    (lookupL data dateK).getD []
  else []

/-- One sync category: `if any(kw in field): if key in data: return data[key]`
(falls through as `none` when the keyword misses or the key is absent). -/
def tryCatSync (field : List Char) (kws : List (List Char)) (key : List Char)
    (data : List (List Char × List Char)) : Option (List Char) :=
  if kwHit field kws then lookupL data key else none

/-- Matcher `get_value_for_field` of `form_filler_sync.py` (sync): sequential `if`
statements; a matching category with an absent key falls through. -/
def get_value_for_field_sync (fieldName : List Char)
    (data : List (List Char × List Char)) : List Char :=
  let field := pyLowerL fieldName
  ((tryCatSync field (["name", "naam", "full name", "your name", "applicant"].map String.data) nameK data).orElse
    (fun _ => (tryCatSync field (["email", "e-mail", "mail", "electronic"].map String.data) emailK data).orElse
    (fun _ => (tryCatSync field (["phone", "mobile", "contact", "telephone", "cell"].map String.data) phoneK data).orElse
    (fun _ => (tryCatSync field (["aadhaar", "aadhar", "uid", "unique", "adhaar", "Aadhar number", "Aadhar"].map String.data) aadhaarK data).orElse
    (fun _ => (tryCatSync field (["pan", "permanent account"].map String.data) panK data).orElse
    (fun _ => (tryCatSync field (["address", "location", "residence", "street"].map String.data) addressK data).orElse
    (fun _ => (tryCatSync field (["pin", "postal", "zip", "pincode"].map String.data) pincodeK data).orElse
    (fun _ => tryCatSync field (["dob", "birth", "date"].map String.data) dateK data)))))))).getD []

/-- Modelled from the spec (claim C1 wording): return the value bound to
the key of the *first* category with a keyword hit, the empty string when
that key is absent, never consulting later categories. -/
def matcherClaimed (cats : List (List (List Char) × List Char))
    (fieldName : List Char) (data : List (List Char × List Char)) : List Char :=
  let field := pyLowerL fieldName
  match cats.find? (fun c => kwHit field c.1) with
  | some c => (lookupL data c.2).getD []
  | none => []

/-- Amended sync semantics: the first category that both has a keyword hit
and whose key is present in the data decides; matching categories with
absent keys are skipped. -/
def matcherSyncAmended (cats : List (List (List Char) × List Char))
    (fieldName : List Char) (data : List (List Char × List Char)) : List Char :=
  let field := pyLowerL fieldName
  (cats.findSome? (fun c => tryCatSync field c.1 c.2 data)).getD []

/-! ## Field Filler

`fill_field` (`form_filler.py` lines 143-206, async) tries: visible text
inputs (focus/clear/type), then `label` sub-elements (click on
case-insensitive substring match of the value), then `select` dropdowns
(exact option label). `_fill_field_advanced` (`form_filler_sync.py`
lines 252-361, sync) tries: visible inputs (with a post-typing
verification read), then `contenteditable` divs, then a JavaScript value
write. A control is abstracted by its visibility, whether interacting
with it completes without an exception, and (sync strategy 1 only) the
value read back by the verification. -/

/-- An abstract input-like control. -/
structure Ctrl where
  visible : Bool
  ok : Bool
  after : List Char
deriving DecidableEq

/-- An abstract `label` sub-element: its inner text, whether reading the
text completes, and whether clicking it completes. -/
structure LabelCtrl where
  text : List Char
  readOk : Bool
  clickOk : Bool
deriving DecidableEq

/-- An abstract question group (a `[role="listitem"]` region) with every
kind of candidate control; each filler consults only the kinds its
strategies query. -/
structure QGroup where
  textInputs : List Ctrl
  labelCtrls : List LabelCtrl
  dropdowns : List (List (List Char))
  editables : List Ctrl
  jsTargets : List Ctrl
deriving DecidableEq

/-- The five control-manipulation strategies named by the spec. -/
inductive Strat where
  | inputs | labels | dropdowns | editables | js
deriving DecidableEq

/-- Sync strategy 1: first visible input whose interaction completes wins;
the verification read (`input_value() == value`) is performed but both of
its outcomes return success, exactly as in the source. -/
def inputsLoopSync (v : List Char) : List Ctrl → Bool
  | [] => false
  | c :: rest =>
    if !c.visible then inputsLoopSync v rest
    else if !c.ok then inputsLoopSync v rest
    else if c.after = v then true
    else true

/-- Async strategy 1 (no verification step). -/
def inputsLoopAsync : List Ctrl → Bool
  | [] => false
  | c :: rest =>
    if !c.visible then inputsLoopAsync rest
    else if c.ok then true
    else inputsLoopAsync rest

/-- Async strategy 2: scan labels; a read failure aborts the whole loop
(the `try` wraps the `for`); on a substring hit the label is clicked —
a click failure likewise aborts the loop. -/
def labelsLoop (v : List Char) : List LabelCtrl → Bool
  | [] => false
  | l :: rest =>
    if !l.readOk then false
    else if isSubL (pyLowerL v) (pyLowerL (pyStripL l.text)) then l.clickOk
    else labelsLoop v rest

/-- Async strategy 3: `select_option(label=value)` on the first dropdown;
an absent option raises, aborting the loop, so later dropdowns are never
reached. -/
def dropdownsLoop (v : List Char) : List (List (List Char)) → Bool
  | [] => false
  | opts :: _ => opts.any (fun o => o == v)

/-- Sync strategy 2: first visible contenteditable whose fill completes. -/
def editablesLoop : List Ctrl → Bool
  | [] => false
  | c :: rest =>
    if !c.visible then editablesLoop rest
    else if c.ok then true
    else editablesLoop rest

/-- Sync strategy 3: first visible `input, textarea` target for which the
script write completes. -/
def jsLoop : List Ctrl → Bool
  | [] => false
  | c :: rest =>
    if !c.visible then jsLoop rest
    else if c.ok then true
    else jsLoop rest

/-- Filler `_fill_field_advanced` (sync), tagged with the strategy that returned
`True`; `none` when all of its strategies are exhausted. -/
def fill_field_advanced (g : QGroup) (v : List Char) : Option Strat :=
  if inputsLoopSync v g.textInputs then some .inputs
  else if editablesLoop g.editables then some .editables
  else if jsLoop g.jsTargets then some .js
  else none

/-- Filler `fill_field` (async), tagged with the strategy that returned `True`. -/
def fill_field (g : QGroup) (v : List Char) : Option Strat :=
  if inputsLoopAsync g.textInputs then some .inputs
  else if labelsLoop v g.labelCtrls then some .labels
  else if dropdownsLoop v g.dropdowns then some .dropdowns
  else none

/-- Modelled from the spec (claim C2 wording): a filler trying all five
strategies in the order inputs, choice labels, dropdowns, contenteditable
regions, script write, stopping at the first success. -/
def fill_field_claimed (g : QGroup) (v : List Char) : Option Strat :=
  if inputsLoopSync v g.textInputs then some .inputs
  else if labelsLoop v g.labelCtrls then some .labels
  else if dropdownsLoop v g.dropdowns then some .dropdowns
  else if editablesLoop g.editables then some .editables
  else if jsLoop g.jsTargets then some .js
  else none

/-! ## The fill-form loop (`fill_form`)

Per question: derive the question text (empty text skips the question
without counting it), count it into `total`, match a value (no value:
skip), attempt the fill (`filled` incremented on success). A question
whose processing raises after the count is caught by the per-question
`except` and contributes to `total` only. -/

/-- One abstract form question: its derived text, whether an exception
occurs before the count or after it, and whether the fill succeeds. -/
structure FQ where
  label : List Char
  raiseEarly : Bool
  raiseLate : Bool
  fillOk : Bool

/-- One iteration of the sync `fill_form` loop over `(filled, total)`. -/
def stepSync (data : List (List Char × List Char)) (st : Nat × Nat) (q : FQ) : Nat × Nat :=
  if q.raiseEarly then st
  else if q.label.isEmpty then st
  else
    let t := st.2 + 1
    if q.raiseLate then (st.1, t)
    else if (get_value_for_field_sync (pyLowerL q.label) data).isEmpty then (st.1, t)
    else if q.fillOk then (st.1 + 1, t) else (st.1, t)

/-- One iteration of the async `fill_form` loop (questions whose text is
shorter than 2 characters are skipped before counting). -/
def stepAsync (data : List (List Char × List Char)) (st : Nat × Nat) (q : FQ) : Nat × Nat :=
  if q.raiseEarly then st
  else if q.label.length < 2 then st
  else
    let t := st.2 + 1
    if q.raiseLate then (st.1, t)
    else if (get_value_for_field (pyLowerL q.label) data).isEmpty then (st.1, t)
    else if q.fillOk then (st.1 + 1, t) else (st.1, t)

/-- The `(filled, total)` pair returned by the sync `fill_form`. -/
def fill_form_sync (data : List (List Char × List Char)) (qs : List FQ) : Nat × Nat :=
  qs.foldl (stepSync data) (0, 0)

/-- The `(filled, total)` pair returned by the async `fill_form`. -/
def fill_form_async (data : List (List Char × List Char)) (qs : List FQ) : Nat × Nat :=
  qs.foldl (stepAsync data) (0, 0)

/-! ## Text acquisition (`extractor.py` lines 46-94)

A parsing collaborator is modelled as the stream of page outcomes it
yields: `some t` is a page's text, `none` marks the point where the
collaborator raises (the strategy's `except` catches it, keeping the
pages harvested so far). -/

/-- Python `text and len(text.strip()) > 50`: keep a page fragment. -/
def keepFrag (t : List Char) : Bool := (pyStripL t).length > 50

/-- Run one strategy's page loop inside its `try`: harvested fragments so
far, plus whether the strategy raised (the raise aborts the loop but the
fragments already appended to `texts` survive). -/
def runStrat (texts : List (List Char)) : List (Option (List Char)) → List (List Char) × Bool
  | [] => (texts, false)
  | none :: _ => (texts, true)
  | some t :: rest => runStrat (texts ++ if keepFrag t then [t] else []) rest

/-- Total length of the harvested fragments (`sum(len(t) for t in texts)`). -/
def sumLen (ts : List (List Char)) : Nat := (ts.map List.length).sum

/-- Acquisition `extract_text`: try the first parser, then the second, then (when the
harvest is empty or shorter than 200 characters) OCR; every failure is
caught locally; the fragments are joined with a blank line. -/
def extract_text (m1 m2 m3 : List (Option (List Char))) : List Char :=
  let t1 := (runStrat [] m1).1
  let t2 := (runStrat t1 m2).1
  let t3 := if t2.isEmpty || sumLen t2 < 200 then (runStrat t2 m3).1 else t2
  joinWith "\n\n".data t3

/-! ## Preview-URL rewrite (`form_filler_sync.py` lines 69-72) -/

/-- Literal `'/preview'`. -/
def pvL : List Char := ['/', 'p', 'r', 'e', 'v', 'i', 'e', 'w']

/-- Literal `'/viewform'`. -/
def vfL : List Char := ['/', 'v', 'i', 'e', 'w', 'f', 'o', 'r', 'm']

/-- Python `url.replace('/preview', '/viewform')`: replace every
non-overlapping occurrence, left to right. -/
def replacePreview : List Char → List Char
  | [] => []
  | c :: rest =>
    if isPrefixL pvL (c :: rest) then vfL ++ replacePreview (rest.drop 7)
    else c :: replacePreview rest
termination_by l => l.length
decreasing_by
  · simp only [List.length_cons]
    have := rest.length_drop 7
    omega
  · simp only [List.length_cons]
    omega

/-- The URL navigated to by the sync `fill_form`. -/
def navUrl (url : List Char) : List Char :=
  if isSubL pvL url then replacePreview url else url

/-! ## Concrete inputs used by counterexamples and witnesses -/

/-- The scenario text of the spec (§8). -/
def scenarioText : List Char :=
  "John Michael Smith\nGovernment of India\nDOB: 01/02/1990\nEmail: john@x.com".data

/-- A label whose keywords hit both the name and the email categories. -/
def c1LabelCE : List Char := "name or email".data

/-- A field map holding only an email. -/
def c1DataCE : List (List Char × List Char) := [(emailK, "a@b.c".data)]

/-- A question group whose only candidate control is one choice label. -/
def gLabelOnly : QGroup := ⟨[], [⟨"male".data, true, true⟩], [], [], []⟩

/-- A question group whose only candidate control is one contenteditable. -/
def gEditOnly : QGroup := ⟨[], [], [], [⟨true, true, []⟩], []⟩

/-- A group with one visible, interactable text input whose read-back
value differs from anything typed. -/
def gInputW : QGroup := ⟨[⟨true, true, "stale".data⟩], [], [], [], []⟩

/-- A two-line text on which name Strategy 1 fires. -/
def c4TextW : List Char := "John Michael Smith\nend".data

/-- A text containing an email address. -/
def c5TextW : List Char := "Email: john@x.com".data

/-- A preview-form URL. -/
def c10UrlW : List Char := "https://docs.google.com/forms/d/e/FORMID/preview".data

/-! ## Substring infrastructure -/

theorem isPrefixL_append (p t : List Char) : isPrefixL p (p ++ t) = true := by
  induction p with
  | nil => rfl
  | cons a q ih => simp [isPrefixL, ih]

theorem isSubL_append_self (m b : List Char) : isSubL m (m ++ b) = true := by
  cases m with
  | nil => cases b <;> simp [isSubL, isPrefixL]
  | cons a q =>
    rw [List.cons_append]
    simp only [isSubL]
    have := isPrefixL_append (a :: q) b
    rw [List.cons_append] at this
    simp [this]

theorem isSubL_of_append (a m b : List Char) : isSubL m (a ++ m ++ b) = true := by
  induction a with
  | nil => simpa using isSubL_append_self m b
  | cons c a' ih =>
    rw [List.cons_append]
    simp only [isSubL, Bool.or_eq_true]
    exact Or.inr (by simpa using ih)

theorem pyStripL_decomp (s : List Char) : ∃ a b, s = a ++ pyStripL s ++ b := by
  refine ⟨s.takeWhile isPySpace,
    ((s.dropWhile isPySpace).reverse.takeWhile isPySpace).reverse, ?_⟩
  conv_lhs => rw [← List.takeWhile_append_dropWhile (p := isPySpace) (l := s)]
  rw [List.append_assoc]
  congr 1
  conv_lhs => rw [← List.reverse_reverse (s.dropWhile isPySpace),
    ← List.takeWhile_append_dropWhile (p := isPySpace)
      (l := (s.dropWhile isPySpace).reverse)]
  rw [List.reverse_append]
  rfl

theorem scanFrom_decomp (m : Option Char → List Char → Option Nat) :
    ∀ (cs : List Char) (prev : Option Char) (r : List Char),
      scanFrom m prev cs = some r → ∃ a b, cs = a ++ r ++ b := by
  intro cs
  induction cs with
  | nil =>
    intro prev r h
    rw [scanFrom] at h
    cases hm : m prev [] with
    | none => rw [hm] at h; exact absurd h (by simp)
    | some n =>
      rw [hm] at h
      simp at h
      exact ⟨[], [], by simp [← h]⟩
  | cons c rest ih =>
    intro prev r h
    rw [scanFrom] at h
    cases hm : m prev (c :: rest) with
    | some n =>
      rw [hm] at h
      simp at h
      refine ⟨[], (c :: rest).drop n, ?_⟩
      simp [← h]
    | none =>
      rw [hm] at h
      obtain ⟨a, b, hab⟩ := ih (some c) r h
      exact ⟨c :: a, b, by simp [hab]⟩

/-- C5: for every input text and each regex-extracted field, the extractor
binds at most one value (the model returns an `Option`, set from
`matches[0]`), and a bound value is the first match of the field's
pattern, trimmed of surrounding whitespace, and a substring of the input
text. -/
theorem c5_regex_first_match_substring (text : List Char) (f : RField) (v : List Char)
    (h : regexField f text = some v) :
    (∃ m, firstMatch f text = some m ∧ v = pyStripL m) ∧ isSubL v text = true := by
  rw [regexField] at h
  cases hm : firstMatch f text with
  | none => rw [hm] at h; exact absurd h (by simp)
  | some m =>
    rw [hm] at h
    simp at h
    refine ⟨⟨m, rfl, h.symm⟩, ?_⟩
    obtain ⟨a, b, hab⟩ := scanFrom_decomp (matcherOf f) text none m hm
    obtain ⟨a', b', hm'⟩ := pyStripL_decomp m
    have h2 : text = (a ++ a') ++ pyStripL m ++ (b' ++ b) := by
      rw [hab]
      conv_lhs => rw [hm']
      simp [List.append_assoc]
    rw [← h, h2]
    exact isSubL_of_append _ _ _

/-- Witness for C5 at a concrete text and field. -/
theorem c5_witness :
    (∃ m, firstMatch RField.email c5TextW = some m ∧ "john@x.com".data = pyStripL m) ∧
    isSubL "john@x.com".data c5TextW = true :=
  c5_regex_first_match_substring c5TextW RField.email "john@x.com".data (by decide)

/-- The element picked by Python's `max` is one of the candidates. -/
theorem foldl_pick_mem (f : α → Nat) :
    ∀ (ys : List α) (b : α),
      ys.foldl (fun b y => if f y > f b then y else b) b = b ∨
      ys.foldl (fun b y => if f y > f b then y else b) b ∈ ys := by
  intro ys
  induction ys with
  | nil => intro b; exact Or.inl rfl
  | cons y ys ih =>
    intro b
    rw [List.foldl_cons]
    rcases ih (if f y > f b then y else b) with h | h
    · rw [h]
      by_cases hc : f y > f b
      · simp [hc]
      · simp [hc]
    · exact Or.inr (List.mem_cons_of_mem y h)

/-- Function `maxByFirst` returns an element of its input list. -/
theorem maxByFirst_mem (f : α → Nat) (l : List α) (x : α)
    (h : maxByFirst f l = some x) : x ∈ l := by
  cases l with
  | nil => exact absurd h (by simp [maxByFirst])
  | cons y ys =>
    rw [maxByFirst] at h
    simp at h
    rcases foldl_pick_mem f ys y with h' | h' <;> rw [h] at h'
    · exact h' ▸ List.mem_cons_self y ys
    · exact List.mem_cons_of_mem y h'

/-- Membership in `potentialNames` means the line qualifies. -/
theorem potentialNames_qualifies (text l : List Char)
    (h : l ∈ potentialNames text) : lineQualifies l = true := by
  rw [potentialNames] at h
  exact List.of_mem_filter h

/-- Every name returned by Strategy 1 is a qualifying line. -/
theorem extract_name_qualifies (text nm : List Char)
    (h : extract_name_improved text = some nm) : lineQualifies nm = true := by
  rw [extract_name_improved] at h
  split at h
  · exact absurd h (by simp)
  · rename_i best h1
    have hbest := maxByFirst_mem _ _ _ h1
    split at h
    · split at h
      · rename_i better h2
        have hmem := maxByFirst_mem _ _ _ h2
        simp at h
        rw [← h]
        exact potentialNames_qualifies _ _ (List.mem_of_mem_filter hmem)
      · simp at h
        rw [← h]
        exact potentialNames_qualifies _ _ hbest
    · simp at h
      rw [← h]
      exact potentialNames_qualifies _ _ hbest

/-- C4: any string returned by name-extraction Strategy 1 contains no run
of 2 or more consecutive digits and contains none of the denylist words
as a case-insensitive substring. -/
theorem c4_name_strategy1_clean (text nm : List Char)
    (h : extract_name_improved text = some nm) :
    hasDigitRun2 nm = false ∧
    skip_words.all (fun w => !(isSubL w (pyLowerL nm))) = true := by
  have hq := extract_name_qualifies text nm h
  rw [lineQualifies] at hq
  simp only [Bool.and_eq_true, Bool.not_eq_true'] at hq
  obtain ⟨⟨⟨⟨⟨hlen, hskip⟩, hdig⟩, hbad⟩, hws⟩, hlen4⟩ := hq
  refine ⟨hdig, ?_⟩
  rw [List.all_eq_true]
  intro w hw
  rw [List.any_eq_false] at hskip
  simp only [Bool.not_eq_true']
  exact Bool.eq_false_iff.mpr (hskip w hw)

/-- Witness for C4 at a concrete text. -/
theorem c4_witness :
    hasDigitRun2 "John Michael Smith".data = false ∧
    skip_words.all (fun w => !(isSubL w (pyLowerL "John Michael Smith".data))) = true :=
  c4_name_strategy1_clean c4TextW "John Michael Smith".data (by decide)

/-- C9: on the spec's scenario text, extraction yields
name = "John Michael Smith", date = "01/02/1990", email = "john@x.com",
and the line "Government of India" is rejected as a name candidate
because a denylist word occurs in it. -/
theorem c9_scenario :
    (extract_structured_data scenarioText).name = some "John Michael Smith".data ∧
    (extract_structured_data scenarioText).date = some "01/02/1990".data ∧
    (extract_structured_data scenarioText).email = some "john@x.com".data ∧
    lineQualifies (pyStripL "Government of India".data) = false ∧
    skip_words.any (fun w => isSubL w (pyLowerL "Government of India".data)) = true := by
  refine ⟨by decide, by decide, by decide, by decide, by decide⟩

/-- C1 counterexample: on the label "name or email" with a field map
holding only an email, the sync matcher returns the email value although
the first keyword-matching category (name) has no value — the claim's
first-matching-category semantics would return the empty string. -/
theorem c1_counterexample :
    get_value_for_field_sync c1LabelCE c1DataCE = "a@b.c".data ∧
    matcherClaimed syncCats c1LabelCE c1DataCE = [] ∧
    get_value_for_field_sync c1LabelCE c1DataCE ≠ matcherClaimed syncCats c1LabelCE c1DataCE :=
  ⟨by decide, by decide, by decide⟩

/-- C1 amended: the async matcher does return the first keyword-matching
category's value (empty when its key is absent, later categories never
consulted), while the sync matcher returns the value of the first
keyword-matching category whose key is present, skipping matching
categories with absent keys. Both test the categories in the fixed
priority order name, email, phone, aadhaar, pan, address, pincode, date. -/
theorem matcherClaimed_nil (fn : List Char) (data : List (List Char × List Char)) :
    matcherClaimed [] fn data = [] := rfl

theorem matcherClaimed_cons (kws : List (List Char)) (key : List Char)
    (cats : List (List (List Char) × List Char)) (fn : List Char)
    (data : List (List Char × List Char)) :
    matcherClaimed ((kws, key) :: cats) fn data =
      if kwHit (pyLowerL fn) kws then (lookupL data key).getD []
      else matcherClaimed cats fn data := by
  rw [matcherClaimed, matcherClaimed, List.find?]
  cases h : kwHit (pyLowerL fn) kws <;> simp [h]

theorem findSome?_cons_orElse (f : α → Option β) (a : α) (l : List α) :
    List.findSome? f (a :: l) = (f a).orElse (fun _ => List.findSome? f l) := by
  cases h : f a <;> simp only [List.findSome?, h, Option.orElse]

theorem orElse_none_right (x : Option α) : (x.orElse fun _ => none) = x := by
  cases x <;> rfl

theorem findSome?_nil_eq (f : α → Option β) : List.findSome? f [] = none := rfl

theorem c1_amended_matcher (fieldName : List Char) (data : List (List Char × List Char)) :
    get_value_for_field fieldName data = matcherClaimed asyncCats fieldName data ∧
    get_value_for_field_sync fieldName data = matcherSyncAmended syncCats fieldName data := by
  constructor
  · simp only [asyncCats, matcherClaimed_cons, matcherClaimed_nil]
    rfl
  · rw [matcherSyncAmended, syncCats]
    simp only [findSome?_cons_orElse, findSome?_nil_eq, orElse_none_right]
    rfl

/-- Sync strategy 1 succeeds exactly when some visible input's interaction
completes, independently of every verification read-back. -/
theorem inputsLoopSync_eq_any (v : List Char) (l : List Ctrl) :
    inputsLoopSync v l = l.any (fun c => c.visible && c.ok) := by
  induction l with
  | nil => rfl
  | cons c rest ih =>
    rw [inputsLoopSync, List.any_cons]
    cases hv : c.visible
    · simp [hv, ih]
    · cases ho : c.ok
      · simp [hv, ho, ih]
      · by_cases ha : c.after = v <;> simp [hv, ho, ha]

/-- Async strategy 1 succeeds exactly when some visible input's
interaction completes. -/
theorem inputsLoopAsync_eq_any (l : List Ctrl) :
    inputsLoopAsync l = l.any (fun c => c.visible && c.ok) := by
  induction l with
  | nil => rfl
  | cons c rest ih =>
    rw [inputsLoopAsync, List.any_cons]
    cases hv : c.visible
    · simp [hv, ih]
    · cases ho : c.ok <;> simp [hv, ho, ih]

/-- C2 counterexample: a group whose only control is a matching choice
label is fillable under the claimed five-strategy order but the sync
filler returns false on it (it has no choice-control strategy); a group
whose only control is a contenteditable region is likewise claimed
fillable but the async filler returns false on it. -/
theorem c2_counterexample :
    fill_field_advanced gLabelOnly "Male".data = none ∧
    fill_field_claimed gLabelOnly "Male".data = some Strat.labels ∧
    fill_field gEditOnly "x".data = none ∧
    fill_field_claimed gEditOnly "x".data = some Strat.editables :=
  ⟨by decide, by decide, by decide, by decide⟩

/-- C2 amended: each filler implements a strict-order subsequence of the
claimed five strategies — sync: inputs, contenteditable, script write;
async: inputs, choice labels, dropdowns — returning success at the first
of its own strategies that succeeds and false only when they are all
exhausted (equivalently, each equals the claimed filler run on the group
with the missing control kinds erased). -/
theorem c2_amended_filler (g : QGroup) (v : List Char) :
    fill_field_advanced g v
      = fill_field_claimed { g with labelCtrls := [], dropdowns := [] } v ∧
    fill_field g v
      = fill_field_claimed { g with editables := [], jsTargets := [] } v ∧
    (fill_field_advanced g v).isSome
      = (inputsLoopSync v g.textInputs || editablesLoop g.editables || jsLoop g.jsTargets) ∧
    (fill_field g v).isSome
      = (inputsLoopAsync g.textInputs || labelsLoop v g.labelCtrls || dropdownsLoop v g.dropdowns) := by
  refine ⟨?_, ?_, ?_, ?_⟩
  · rw [fill_field_advanced, fill_field_claimed]
    simp only [labelsLoop, dropdownsLoop]
    cases h1 : inputsLoopSync v g.textInputs <;>
      cases h2 : editablesLoop g.editables <;>
        cases h3 : jsLoop g.jsTargets <;> simp [h1, h2, h3]
  · rw [fill_field, fill_field_claimed]
    simp only [editablesLoop, jsLoop, inputsLoopSync_eq_any, inputsLoopAsync_eq_any]
    cases h1 : g.textInputs.any (fun c => c.visible && c.ok) <;>
      cases h2 : labelsLoop v g.labelCtrls <;>
        cases h3 : dropdownsLoop v g.dropdowns <;> simp [h1, h2, h3]
  · rw [fill_field_advanced]
    cases h1 : inputsLoopSync v g.textInputs <;>
      cases h2 : editablesLoop g.editables <;>
        cases h3 : jsLoop g.jsTargets <;> simp [h1, h2, h3]
  · rw [fill_field]
    cases h1 : inputsLoopAsync g.textInputs <;>
      cases h2 : labelsLoop v g.labelCtrls <;>
        cases h3 : dropdownsLoop v g.dropdowns <;> simp [h1, h2, h3]

/-- C8: in sync strategy 1, once a visible input's typing completed
without an exception the attempt returns success, and the result is
invariant under arbitrarily rewriting every read-back value — the
post-typing verification can neither revert nor withhold success. -/
theorem c8_strategy1_ignores_verification (g : QGroup) (v w : List Char) :
    (g.textInputs.any (fun c => c.visible && c.ok) = true →
      fill_field_advanced g v = some Strat.inputs) ∧
    fill_field_advanced
        { g with textInputs := g.textInputs.map (fun c => { c with after := w }) } v
      = fill_field_advanced g v := by
  constructor
  · intro h
    rw [fill_field_advanced, inputsLoopSync_eq_any, h]
    rfl
  · rw [fill_field_advanced, fill_field_advanced]
    simp only [inputsLoopSync_eq_any, List.any_map]
    rfl

/-- Witness for C8: the sole input is visible and typable but reads back
a value different from the one typed; the fill still succeeds. -/
theorem c8_witness : fill_field_advanced gInputW "typed".data = some Strat.inputs :=
  (c8_strategy1_ignores_verification gInputW "typed".data []).1 (by decide)

/-- One sync loop iteration preserves `filled ≤ total`. -/
theorem stepSync_preserves (data : List (List Char × List Char)) (st : Nat × Nat) (q : FQ)
    (h : st.1 ≤ st.2) : (stepSync data st q).1 ≤ (stepSync data st q).2 := by
  rw [stepSync]
  repeat' split
  all_goals simp_all
  all_goals omega

/-- One async loop iteration preserves `filled ≤ total`. -/
theorem stepAsync_preserves (data : List (List Char × List Char)) (st : Nat × Nat) (q : FQ)
    (h : st.1 ≤ st.2) : (stepAsync data st q).1 ≤ (stepAsync data st q).2 := by
  rw [stepAsync]
  repeat' split
  all_goals simp_all
  all_goals omega

/-- The fill loop keeps the invariant from any valid starting state. -/
theorem foldl_stepSync_le (data : List (List Char × List Char)) :
    ∀ (qs : List FQ) (st : Nat × Nat), st.1 ≤ st.2 →
      (qs.foldl (stepSync data) st).1 ≤ (qs.foldl (stepSync data) st).2 := by
  intro qs
  induction qs with
  | nil => intro st h; simpa using h
  | cons q rest ih =>
    intro st h
    rw [List.foldl_cons]
    exact ih _ (stepSync_preserves data st q h)

/-- The async fill loop keeps the invariant from any valid state. -/
theorem foldl_stepAsync_le (data : List (List Char × List Char)) :
    ∀ (qs : List FQ) (st : Nat × Nat), st.1 ≤ st.2 →
      (qs.foldl (stepAsync data) st).1 ≤ (qs.foldl (stepAsync data) st).2 := by
  intro qs
  induction qs with
  | nil => intro st h; simpa using h
  | cons q rest ih =>
    intro st h
    rw [List.foldl_cons]
    exact ih _ (stepAsync_preserves data st q h)

/-- C7: throughout every fill session — after any number `n` of loop
iterations, hence in particular at return — the count of filled fields
never exceeds the count of counted question groups, in both fillers. -/
theorem c7_filled_le_total (data : List (List Char × List Char)) (qs : List FQ) (n : Nat) :
    ((qs.take n).foldl (stepSync data) (0, 0)).1
      ≤ ((qs.take n).foldl (stepSync data) (0, 0)).2 ∧
    ((qs.take n).foldl (stepAsync data) (0, 0)).1
      ≤ ((qs.take n).foldl (stepAsync data) (0, 0)).2 ∧
    (fill_form_sync data qs).1 ≤ (fill_form_sync data qs).2 ∧
    (fill_form_async data qs).1 ≤ (fill_form_async data qs).2 :=
  ⟨foldl_stepSync_le data _ _ (by simp), foldl_stepAsync_le data _ _ (by simp),
   foldl_stepSync_le data _ _ (by simp), foldl_stepAsync_le data _ _ (by simp)⟩

/-- Pages harvested from an error-free stream. -/
theorem runStrat_map_some :
    ∀ (p : List (List Char)) (texts : List (List Char)),
      runStrat texts (p.map some) = (texts ++ p.filter keepFrag, false) := by
  intro p
  induction p with
  | nil => intro texts; simp [runStrat]
  | cons t rest ih =>
    intro texts
    rw [List.map_cons, runStrat, ih]
    by_cases h : keepFrag t <;> simp [h]

/-- A stream that raises after `p` good pages: the harvest is the same as
for the truncated stream, the raise is flagged (and caught). -/
theorem runStrat_with_err :
    ∀ (p : List (List Char)) (post : List (Option (List Char))) (texts : List (List Char)),
      runStrat texts (p.map some ++ none :: post) = (texts ++ p.filter keepFrag, true) := by
  intro p
  induction p with
  | nil => intro post texts; simp [runStrat]
  | cons t rest ih =>
    intro post texts
    rw [List.map_cons, List.cons_append, runStrat, ih]
    by_cases h : keepFrag t <;> simp [h]

/-- C6: text acquisition never surfaces a collaborator failure: a parse or
OCR strategy that raises mid-stream contributes exactly the fragments it
had already yielded — the result equals that of the error-free truncated
stream, and the remaining strategies still run — and when every strategy
fails the result is the valid empty text, not an error. -/
theorem c6_extract_text_recovers (p1 p2 p3 : List (List Char))
    (post1 post2 post3 : List (Option (List Char)))
    (m1 m2 m3 : List (Option (List Char))) :
    extract_text (p1.map some ++ none :: post1) m2 m3 = extract_text (p1.map some) m2 m3 ∧
    extract_text m1 (p2.map some ++ none :: post2) m3 = extract_text m1 (p2.map some) m3 ∧
    extract_text m1 m2 (p3.map some ++ none :: post3) = extract_text m1 m2 (p3.map some) ∧
    extract_text [none] [none] [none] = [] := by
  refine ⟨?_, ?_, ?_, by decide⟩
  · rw [extract_text, extract_text, runStrat_with_err, runStrat_map_some]
  · rw [extract_text, extract_text]
    cases h : runStrat [] m1 with
    | mk t1 e1 =>
      simp only
      rw [runStrat_with_err, runStrat_map_some]
  · rw [extract_text, extract_text]
    cases h1 : runStrat [] m1 with
    | mk t1 e1 =>
      cases h2 : runStrat t1 m2 with
      | mk t2 e2 =>
        simp only
        by_cases hc : t2.isEmpty || sumLen t2 < 200 <;>
          simp [hc, runStrat_with_err, runStrat_map_some]

/-- Scanning `'/preview'` across `'/viewform' ++ R` can only hit inside
`R`: every start position touching the replacement text mismatches. -/
theorem isSubL_pv_vf_append (R : List Char) :
    isSubL pvL (vfL ++ R) = isSubL pvL R := by
  have e0 : isPrefixL pvL ('/' :: 'v' :: 'i' :: 'e' :: 'w' :: 'f' :: 'o' :: 'r' :: 'm' :: R) = false := rfl
  have e1 : isPrefixL pvL ('v' :: 'i' :: 'e' :: 'w' :: 'f' :: 'o' :: 'r' :: 'm' :: R) = false := rfl
  have e2 : isPrefixL pvL ('i' :: 'e' :: 'w' :: 'f' :: 'o' :: 'r' :: 'm' :: R) = false := rfl
  have e3 : isPrefixL pvL ('e' :: 'w' :: 'f' :: 'o' :: 'r' :: 'm' :: R) = false := rfl
  have e4 : isPrefixL pvL ('w' :: 'f' :: 'o' :: 'r' :: 'm' :: R) = false := rfl
  have e5 : isPrefixL pvL ('f' :: 'o' :: 'r' :: 'm' :: R) = false := rfl
  have e6 : isPrefixL pvL ('o' :: 'r' :: 'm' :: R) = false := rfl
  have e7 : isPrefixL pvL ('r' :: 'm' :: R) = false := rfl
  have e8 : isPrefixL pvL ('m' :: R) = false := rfl
  show isSubL pvL ('/' :: 'v' :: 'i' :: 'e' :: 'w' :: 'f' :: 'o' :: 'r' :: 'm' :: R) = isSubL pvL R
  simp only [isSubL, e0, e1, e2, e3, e4, e5, e6, e7, e8, Bool.false_or]

/-- A slash-free prefix of a replacement result is already a prefix of the
original: replaced segments always start with a slash. -/
theorem noSlash_prefix_transfer :
    ∀ (n : Nat) (l q : List Char), l.length ≤ n →
      q.all (fun c => c ≠ '/') = true →
      isPrefixL q (replacePreview l) = true → isPrefixL q l = true := by
  intro n
  induction n with
  | zero =>
    intro l q hl hq hp
    have hln : l = [] := List.length_eq_zero.mp (Nat.le_zero.mp hl)
    subst hln
    cases q with
    | nil => rfl
    | cons a q' => exact absurd hp (by simp [replacePreview, isPrefixL])
  | succ n ih =>
    intro l q hl hq hp
    cases l with
    | nil =>
      cases q with
      | nil => rfl
      | cons a q' => exact absurd hp (by simp [replacePreview, isPrefixL])
    | cons c rest =>
      rw [replacePreview] at hp
      by_cases hpv : isPrefixL pvL (c :: rest)
      · rw [if_pos hpv] at hp
        cases q with
        | nil => rfl
        | cons a q' =>
          exfalso
          simp only [List.all_cons, Bool.and_eq_true, decide_eq_true_eq] at hq
          have hvf : vfL ++ replacePreview (rest.drop 7)
              = '/' :: ('v' :: 'i' :: 'e' :: 'w' :: 'f' :: 'o' :: 'r' :: 'm'
                :: replacePreview (rest.drop 7)) := rfl
          rw [hvf] at hp
          simp only [isPrefixL, Bool.and_eq_true, beq_iff_eq] at hp
          exact hq.1 hp.1
      · rw [if_neg hpv] at hp
        cases q with
        | nil => rfl
        | cons a q' =>
          simp only [isPrefixL, Bool.and_eq_true] at hp ⊢
          refine ⟨hp.1, ?_⟩
          simp only [List.all_cons, Bool.and_eq_true] at hq
          have hrest : rest.length ≤ n := by
            simp only [List.length_cons] at hl
            omega
          exact ih rest q' hrest hq.2 hp.2

/-- The output of `replacePreview` contains no occurrence of `'/preview'`. -/
theorem replacePreview_no_pv :
    ∀ (n : Nat) (l : List Char), l.length ≤ n →
      isSubL pvL (replacePreview l) = false := by
  intro n
  induction n with
  | zero =>
    intro l hl
    have hln : l = [] := List.length_eq_zero.mp (Nat.le_zero.mp hl)
    subst hln
    rw [replacePreview]
    rfl
  | succ n ih =>
    intro l hl
    cases l with
    | nil =>
      rw [replacePreview]
      rfl
    | cons c rest =>
      rw [replacePreview]
      by_cases hpv : isPrefixL pvL (c :: rest)
      · rw [if_pos hpv, isSubL_pv_vf_append]
        refine ih _ ?_
        have := rest.length_drop 7
        simp only [List.length_cons] at hl
        omega
      · rw [if_neg hpv]
        have hrest : rest.length ≤ n := by
          simp only [List.length_cons] at hl
          omega
        simp only [isSubL, ih rest hrest, Bool.or_false]
        by_contra hcon
        rw [Bool.not_eq_false] at hcon
        have hsplit : c = '/' ∧
            isPrefixL ['p', 'r', 'e', 'v', 'i', 'e', 'w'] (replacePreview rest) = true := by
          have hpv' : pvL = '/' :: ['p', 'r', 'e', 'v', 'i', 'e', 'w'] := rfl
          rw [hpv'] at hcon
          simp only [isPrefixL, Bool.and_eq_true, beq_iff_eq] at hcon
          exact ⟨hcon.1.symm, hcon.2⟩
        have htail := noSlash_prefix_transfer n rest ['p', 'r', 'e', 'v', 'i', 'e', 'w']
          hrest (by decide) hsplit.2
        apply hpv
        have hpv' : pvL = '/' :: ['p', 'r', 'e', 'v', 'i', 'e', 'w'] := rfl
        rw [hpv', hsplit.1]
        simp only [isPrefixL, Bool.and_eq_true, beq_iff_eq]
        exact ⟨by trivial, htail⟩

/-- C10: the page navigated to never contains `/preview` — a URL holding
the substring is rewritten by replacing every `/preview` with
`/viewform` before navigation, and a URL without it is navigated to
unchanged (the conditional in the second conjunct is the source's own
`if '/preview' in url` guard). -/
theorem c10_preview_rewrite (url : List Char) :
    isSubL pvL (navUrl url) = false ∧
    navUrl url = (if isSubL pvL url then replacePreview url else url) := by
  refine ⟨?_, rfl⟩
  rw [navUrl]
  by_cases h : isSubL pvL url
  · rw [if_pos h]
    exact replacePreview_no_pv url.length url (Nat.le_refl _)
  · rw [if_neg h]
    exact Bool.eq_false_iff.mpr h
